import Mathlib

/-!
Verification of the reminder-agent repository: a shallow embedding of the
task store (`src/task-service.ts`), the MCP tool-call dispatcher
(`src/mcp-server.ts`), and the stdio JSON-RPC client (`src/agent.ts`,
class `MCPClient`) together with proofs of the specification's claims.

Modelling conventions:
* ISO-8601 timestamp strings are modelled by their epoch-millisecond
  values (`Int`), since the code only ever compares them through
  `new Date(...)` or writes `new Date(...).toISOString()`.
* File-system effects are made explicit: a load takes the result of
  reading and JSON-parsing the document (`Except` standing for the thrown
  exception), and a `saveOk : Bool` parameter tells whether
  `writeFileSync` succeeds.
* JavaScript `undefined` flowing through an optional field is modelled
  with `Option`.
-/

namespace ReminderAgent

/-- `types.ts`: `TaskStatus`. -/
inductive TaskStatus
  | pending
  | in_progress
  | completed
  | overdue
deriving DecidableEq, Repr

/-- `types.ts`: `Priority`. -/
inductive Priority
  | low
  | medium
  | high
  | critical
deriving DecidableEq, Repr

/-- `types.ts`: `Task`.  `title` is typed `string` in TypeScript, but the
`add_task` handler can feed `undefined` through its unchecked cast
(`args?.title as string`), so at runtime it is optional; it is modelled as
`Option String`. -/
structure Task where
  id : String
  title : Option String
  description : Option String
  priority : Priority
  status : TaskStatus
  dueDate : Option Int
  tags : Option (List String)
  createdAt : Int
  updatedAt : Int
deriving DecidableEq, Repr

/-- The guard of the mutation in `TaskService.updateOverdueStatus`: the task
has a due date, is not completed, the due date is strictly before `now`, and
the task is not already overdue. -/
def overdueChanged (now : Int) (t : Task) : Bool :=
  match t.dueDate with
  | some d =>
      (t.status != TaskStatus.completed) && decide (d < now) &&
        (t.status != TaskStatus.overdue)
  | none => false

/-- The per-task effect of `TaskService.updateOverdueStatus`: when the guard
holds, the status becomes `overdue` and `updatedAt` is refreshed to `now`. -/
def overdueStep (now : Int) (t : Task) : Task :=
  if overdueChanged now t then
    { t with status := TaskStatus.overdue, updatedAt := now }
  else t

/-- `TaskService.updateOverdueStatus`: rewrites every eligible task; the
returned `Bool` is `hasChanges`, i.e. whether `saveTasks` is invoked (and it
is invoked exactly once in that case). -/
def updateOverdueStatus (now : Int) (tasks : List Task) : List Task × Bool :=
  (tasks.map (overdueStep now), tasks.any (overdueChanged now))

/-- `TaskService.loadTasks`.  `doc` is the combined result of `readFileSync`
plus `JSON.parse` of the backing document (`Except.error` = either threw).
The `catch` branch logs the error via `console.error` and resets the
collection to `[]`; the returned `Bool` records whether that operator report
happened.  A failing `saveTasks` inside `updateOverdueStatus` is raised
within the same `try`, so it also lands in the `catch` and empties the
collection. -/
def loadTasks (doc : Except String (List Task)) (now : Int) (saveOk : Bool) :
    List Task × Bool :=
  match doc with
  | Except.error _ => ([], true)
  | Except.ok ts =>
      let r := updateOverdueStatus now ts
      if r.2 && !saveOk then ([], true) else (r.1, false)

/-- `TaskService.getAllTasks`: reload (with its overdue derivation), then
return the whole collection. -/
def getAllTasks (doc : Except String (List Task)) (now : Int) (saveOk : Bool) :
    List Task :=
  (loadTasks doc now saveOk).1

/-- `types.ts`: `TaskFilter`. -/
structure TaskFilter where
  status : Option TaskStatus := none
  priority : Option Priority := none
  tag : Option String := none
  dueBefore : Option Int := none
  dueAfter : Option Int := none
deriving DecidableEq, Repr

/-- The filter cascade of `TaskService.getTasks` applied to an in-memory
collection.  Each `if (filter.x)` truthiness test is modelled: enum and date
fields are truthy exactly when present, while a present-but-empty `tag`
string is falsy. -/
def applyFilter (f : TaskFilter) (tasks : List Task) : List Task :=
  let r := tasks
  let r := match f.status with
    | some s => r.filter (fun t => t.status == s)
    | none => r
  let r := match f.priority with
    | some p => r.filter (fun t => t.priority == p)
    | none => r
  let r := match f.tag with
    | some tg =>
        if tg = "" then r else r.filter (fun t => (t.tags.getD []).contains tg)
    | none => r
  let r := match f.dueBefore with
    | some b =>
        r.filter (fun t => match t.dueDate with
          | some d => decide (d ≤ b)
          | none => false)
    | none => r
  match f.dueAfter with
  | some a =>
      r.filter (fun t => match t.dueDate with
        | some d => decide (a ≤ d)
        | none => false)
  | none => r

/-- `TaskService.getTasks`: reload, then filter. -/
def getTasks (doc : Except String (List Task)) (now : Int) (saveOk : Bool)
    (f : TaskFilter) : List Task :=
  applyFilter f (loadTasks doc now saveOk).1

/-- `TaskService.getTaskById` applied to an in-memory collection.  The id
parameter is `Option String` because the tool handler forwards `args?.id`
unchecked; an absent id (`undefined`) matches no task. -/
def findTaskById (id : Option String) (tasks : List Task) : Option Task :=
  tasks.find? (fun t => some t.id == id)

/-- `TaskService.getTaskById`: reload, then look up. -/
def getTaskById (doc : Except String (List Task)) (now : Int) (saveOk : Bool)
    (id : Option String) : Option Task :=
  findTaskById id (loadTasks doc now saveOk).1

/-- The caller-supplied fields of `TaskService.addTask`
(`Omit<Task, 'id' | 'createdAt' | 'updatedAt'>`). -/
structure NewTaskFields where
  title : Option String
  description : Option String
  priority : Priority
  status : TaskStatus
  dueDate : Option Int
  tags : Option (List String)
deriving DecidableEq, Repr

/-- `TaskService.addTask`, pure part: `new Date().toISOString()` and
`Date.now()` are reads of the same clock instant `now`; the new id is the
epoch-millisecond time rendered as a decimal string, the new task is pushed
onto the end of the collection, and `saveTasks` is then called exactly once
(its outcome is handled by `addTaskRun` below). -/
def addTask (now : Int) (f : NewTaskFields) (tasks : List Task) :
    Task × List Task :=
  let newTask : Task :=
    { id := toString now
      title := f.title
      description := f.description
      priority := f.priority
      status := f.status
      dueDate := f.dueDate
      tags := f.tags
      createdAt := now
      updatedAt := now }
  (newTask, tasks ++ [newTask])

/-- `TaskService.addTask` with its unguarded `saveTasks` call: the push into
`this.tasks` happens before `writeFileSync`, so when the write fails the
exception propagates to the caller of `addTask` while the in-memory push
remains in place. -/
def addTaskRun (saveOk : Bool) (now : Int) (f : NewTaskFields)
    (tasks : List Task) : List Task × Except Unit Task :=
  let r := addTask now f tasks
  (r.2, if saveOk then Except.ok r.1 else Except.error ())

/-- Replace the first list entry satisfying `p` (the in-place mutation of the
object returned by `this.tasks.find`). -/
def replaceFirst (p : Task → Bool) (t2 : Task) : List Task → List Task
  | [] => []
  | t :: ts => if p t then t2 :: ts else t :: replaceFirst p t2 ts

/-- `TaskService.updateTaskStatus`: find the task, mutate its status and
`updatedAt` in place, save.  Returns the updated task (`none` = the
`return null` branch), the new collection, and whether `saveTasks` ran.
The id is `Option String` because the tool handler forwards `args?.id`
unchecked. -/
def updateTaskStatus (now : Int) (id : Option String) (status : TaskStatus)
    (tasks : List Task) : Option Task × List Task × Bool :=
  match tasks.find? (fun t => some t.id == id) with
  | none => (none, tasks, false)
  | some t =>
      let t2 := { t with status := status, updatedAt := now }
      (some t2, replaceFirst (fun u => some u.id == id) t2 tasks, true)

/-- `TaskService.deleteTask`: `findIndex` then `splice(index, 1)` and save.
Returns whether a task was removed, the new collection, and whether
`saveTasks` ran. -/
def deleteTask (id : Option String) (tasks : List Task) :
    Bool × List Task × Bool :=
  match tasks.findIdx? (fun t => some t.id == id) with
  | none => (false, tasks, false)
  | some i => (true, tasks.eraseIdx i, true)

/-- 24 hours in milliseconds (`24 * 60 * 60 * 1000`). -/
def dayMs : Int := 86400000

/-- `Record<TaskStatus, number>` — the `byStatus` object of `TaskSummary`,
initialized with all four keys present and zero. -/
structure StatusCounts where
  pending : Nat
  in_progress : Nat
  completed : Nat
  overdue : Nat
deriving DecidableEq, Repr

/-- `Record<Priority, number>` — the `byPriority` object of `TaskSummary`. -/
structure PriorityCounts where
  low : Nat
  medium : Nat
  high : Nat
  critical : Nat
deriving DecidableEq, Repr

/-- `types.ts`: `TaskSummary`. -/
structure TaskSummary where
  total : Nat
  byStatus : StatusCounts
  byPriority : PriorityCounts
  overdueTasks : List Task
  upcomingTasks : List Task
  todayTasks : List Task
deriving DecidableEq, Repr

/-- `summary.byStatus[task.status]++`. -/
def bumpStatus (c : StatusCounts) : TaskStatus → StatusCounts
  | TaskStatus.pending => { c with pending := c.pending + 1 }
  | TaskStatus.in_progress => { c with in_progress := c.in_progress + 1 }
  | TaskStatus.completed => { c with completed := c.completed + 1 }
  | TaskStatus.overdue => { c with overdue := c.overdue + 1 }

/-- `summary.byPriority[task.priority]++`. -/
def bumpPriority (c : PriorityCounts) : Priority → PriorityCounts
  | Priority.low => { c with low := c.low + 1 }
  | Priority.medium => { c with medium := c.medium + 1 }
  | Priority.high => { c with high := c.high + 1 }
  | Priority.critical => { c with critical := c.critical + 1 }

/-- The body of the `forEach` in `TaskService.getSummary`: bump the status
and priority counters, collect overdue tasks, then — for tasks with a due
date — collect today's tasks (`todayStart ≤ due < todayStart + 24h`, status
not completed) and upcoming tasks (`now ≤ due ≤ now + 24h`, status not
completed), pushing in encounter order. -/
def summaryStep (now todayStart : Int) (s : TaskSummary) (t : Task) :
    TaskSummary :=
  let s := { s with byStatus := bumpStatus s.byStatus t.status }
  let s := { s with byPriority := bumpPriority s.byPriority t.priority }
  let s :=
    if t.status = TaskStatus.overdue then
      { s with overdueTasks := s.overdueTasks ++ [t] }
    else s
  match t.dueDate with
  | none => s
  | some d =>
      let s :=
        if todayStart ≤ d ∧ d < todayStart + dayMs ∧
            t.status ≠ TaskStatus.completed then
          { s with todayTasks := s.todayTasks ++ [t] }
        else s
      if now ≤ d ∧ d ≤ now + dayMs ∧ t.status ≠ TaskStatus.completed then
        { s with upcomingTasks := s.upcomingTasks ++ [t] }
      else s

/-- `TaskService.getSummary` over an in-memory collection.  `todayStart`
models `new Date(now.getFullYear(), now.getMonth(), now.getDate())`: the
start of the current local calendar day; `todayEnd` is `todayStart + 24h`. -/
def summarize (now todayStart : Int) (tasks : List Task) : TaskSummary :=
  tasks.foldl (summaryStep now todayStart)
    { total := tasks.length
      byStatus := ⟨0, 0, 0, 0⟩
      byPriority := ⟨0, 0, 0, 0⟩
      overdueTasks := []
      upcomingTasks := []
      todayTasks := [] }

/-- `TaskService.getSummary`: reload, then aggregate. -/
def getSummary (doc : Except String (List Task)) (now todayStart : Int)
    (saveOk : Bool) : TaskSummary :=
  summarize now todayStart (loadTasks doc now saveOk).1

/-- The `arguments` mapping of a `tools/call` request as the handler reads
it: every field access `args?.x` may find the key absent. -/
structure ToolArgs where
  id : Option String := none
  status : Option TaskStatus := none
  priority : Option Priority := none
  tag : Option String := none
  title : Option String := none
  description : Option String := none
  dueDate : Option Int := none
  tags : Option (List String) := none
deriving DecidableEq, Repr

/-- The text payload of a tool result.  The handler serializes structured
data with `JSON.stringify` (or a fixed Russian message); the constructors
record which payload was produced. -/
inductive ToolText
  | tasksJson (ts : List Task)
  | summaryJson (s : TaskSummary)
  | taskJson (t : Task)
  | createdMsg (t : Task)
  | updatedMsg (t : Task)
  | notFoundMsg
  | deletedMsg
  | unknownToolMsg (name : String)
  | caughtErrorMsg
deriving DecidableEq, Repr

/-- A tool result: `content[0].text` plus the `isError` flag (absent flag =
`false`). -/
structure ToolResult where
  text : ToolText
  isError : Bool
deriving DecidableEq, Repr

/-- The `CallToolRequestSchema` handler of `src/mcp-server.ts`.  `doc` is the
on-disk document consulted by the reload inside each read operation, `tasks`
the service's in-memory collection, `saveOk` whether `writeFileSync`
succeeds.  Returns the tool result and the in-memory collection afterwards.
The surrounding `try/catch` converts an exception thrown inside a case
(here: only a failing `saveTasks`) into an error-flagged result; in-memory
mutations made before the throw survive.  In the `update_task_status` case
the handler forwards `args?.status` through an unchecked cast; the typed
model cannot represent the `undefined` status the code would store when both
the id is found and the status argument is absent, so that (unexercised)
shape defaults the status — every property proved below supplies the status
argument or an unfindable id. -/
def handleToolCall (doc : Except String (List Task)) (now todayStart : Int)
    (saveOk : Bool) (tasks : List Task) (name : String) (args : ToolArgs) :
    ToolResult × List Task :=
  if name = "get_tasks" then
    let f : TaskFilter :=
      { status := args.status
        priority := args.priority
        tag := match args.tag with
          | some tg => if tg = "" then none else some tg
          | none => none }
    let reloaded := (loadTasks doc now saveOk).1
    (⟨ToolText.tasksJson (applyFilter f reloaded), false⟩, reloaded)
  else if name = "get_task_summary" then
    let reloaded := (loadTasks doc now saveOk).1
    (⟨ToolText.summaryJson (summarize now todayStart reloaded), false⟩,
      reloaded)
  else if name = "get_task_by_id" then
    let reloaded := (loadTasks doc now saveOk).1
    match findTaskById args.id reloaded with
    | none => (⟨ToolText.notFoundMsg, true⟩, reloaded)
    | some t => (⟨ToolText.taskJson t, false⟩, reloaded)
  else if name = "add_task" then
    let fields : NewTaskFields :=
      { title := args.title
        description := args.description
        priority := args.priority.getD Priority.medium
        status := TaskStatus.pending
        dueDate := args.dueDate
        tags := args.tags }
    let r := addTask now fields tasks
    if saveOk then (⟨ToolText.createdMsg r.1, false⟩, r.2)
    else (⟨ToolText.caughtErrorMsg, true⟩, r.2)
  else if name = "update_task_status" then
    let r := updateTaskStatus now args.id
      (args.status.getD TaskStatus.pending) tasks
    match r.1 with
    | none => (⟨ToolText.notFoundMsg, true⟩, r.2.1)
    | some t =>
        if saveOk then (⟨ToolText.updatedMsg t, false⟩, r.2.1)
        else (⟨ToolText.caughtErrorMsg, true⟩, r.2.1)
  else if name = "delete_task" then
    let r := deleteTask args.id tasks
    if r.1 && !saveOk then (⟨ToolText.caughtErrorMsg, true⟩, r.2.1)
    else
      (⟨if r.1 then ToolText.deletedMsg else ToolText.notFoundMsg, !r.1⟩,
        r.2.1)
  else if name = "get_overdue_tasks" then
    let reloaded := (loadTasks doc now saveOk).1
    (⟨ToolText.tasksJson (summarize now todayStart reloaded).overdueTasks,
        false⟩, reloaded)
  else if name = "get_today_tasks" then
    let reloaded := (loadTasks doc now saveOk).1
    (⟨ToolText.tasksJson (summarize now todayStart reloaded).todayTasks,
        false⟩, reloaded)
  else (⟨ToolText.unknownToolMsg name, true⟩, tasks)

/-! ### JSON values and `JSON.parse`

`MCPClient.processBuffer` calls the platform's `JSON.parse` on each framed
line.  The parser below models it: JSON's grammar over characters, with a
fuel argument bounding recursion depth.  String escape sequences are
validated but kept verbatim in the stored text, and numbers are stored as
their numeral text — the claims below only depend on parse success/failure
and on the structure of parsed messages. -/

/-- A parsed JSON value. -/
inductive Json
  | jnull
  | jbool (b : Bool)
  | jnum (s : String)
  | jstr (s : String)
  | jarr (elems : List Json)
  | jobj (fields : List (String × Json))

/-- JSON whitespace. -/
def isWsChar (c : Char) : Bool :=
  c = ' ' || c = '\t' || c = '\n' || c = '\r'

/-- Drop leading JSON whitespace. -/
def skipWs : List Char → List Char
  | [] => []
  | c :: cs => if isWsChar c then skipWs cs else c :: cs

/-- Hexadecimal digit. -/
def isHexDigit (c : Char) : Bool :=
  c.isDigit || ('a' ≤ c && c ≤ 'f') || ('A' ≤ c && c ≤ 'F')

/-- Scan a JSON string body after the opening quote: returns the raw body
characters (escapes validated, kept verbatim) and the rest after the closing
quote.  Unterminated strings, invalid escapes, and raw control characters
fail, as in `JSON.parse`. -/
def scanStringBody : Nat → List Char → Option (List Char × List Char)
  | 0, _ => none
  | _, [] => none
  | fuel + 1, c :: cs =>
    if c = '"' then some ([], cs)
    else if c = '\\' then
      match cs with
      | [] => none
      | e :: cs2 =>
        if e = 'u' then
          match cs2 with
          | h1 :: h2 :: h3 :: h4 :: cs3 =>
            if isHexDigit h1 && isHexDigit h2 && isHexDigit h3 &&
                isHexDigit h4 then
              match scanStringBody fuel cs3 with
              | some (body, rest) =>
                  some (c :: e :: h1 :: h2 :: h3 :: h4 :: body, rest)
              | none => none
            else none
          | _ => none
        else if e = '"' || e = '\\' || e = '/' || e = 'b' || e = 'f' ||
            e = 'n' || e = 'r' || e = 't' then
          match scanStringBody fuel cs2 with
          | some (body, rest) => some (c :: e :: body, rest)
          | none => none
        else none
    else if c.toNat < 32 then none
    else
      match scanStringBody fuel cs with
      | some (body, rest) => some (c :: body, rest)
      | none => none

/-- Scan a maximal run of decimal digits. -/
def scanDigits : List Char → List Char × List Char
  | [] => ([], [])
  | c :: cs =>
    if c.isDigit then
      let r := scanDigits cs
      (c :: r.1, r.2)
    else ([], c :: cs)

/-- Scan an optional fraction part (`. digits`).  When the dot is not
followed by a digit nothing is consumed; the stray character then fails at
the enclosing grammar position, as in `JSON.parse`. -/
def scanFrac (cs : List Char) : List Char × List Char :=
  match cs with
  | '.' :: r =>
      let d := scanDigits r
      if d.1.isEmpty then ([], cs) else ('.' :: d.1, d.2)
  | _ => ([], cs)

/-- Scan an optional exponent part (`[eE] [+-]? digits`), with the same
no-consume-on-malformed convention as `scanFrac`. -/
def scanExp (cs : List Char) : List Char × List Char :=
  match cs with
  | [] => ([], cs)
  | c :: r =>
    if c = 'e' || c = 'E' then
      match r with
      | [] => ([], cs)
      | s :: r2 =>
        if s = '+' || s = '-' then
          let d := scanDigits r2
          if d.1.isEmpty then ([], cs) else (c :: s :: d.1, d.2)
        else
          let d := scanDigits r
          if d.1.isEmpty then ([], cs) else (c :: d.1, d.2)
    else ([], cs)

/-- Scan a JSON number: `-? (0 | [1-9][0-9]*) frac? exp?`. -/
def scanNumber (cs : List Char) : Option (List Char × List Char) :=
  let p := match cs with
    | '-' :: r => ((['-'] : List Char), r)
    | _ => (([] : List Char), cs)
  match p.2 with
  | [] => none
  | c :: rest =>
    if c = '0' then
      let f := scanFrac rest
      let e := scanExp f.2
      some (p.1 ++ [c] ++ f.1 ++ e.1, e.2)
    else if c.isDigit then
      let d := scanDigits rest
      let f := scanFrac d.2
      let e := scanExp f.2
      some (p.1 ++ (c :: d.1) ++ f.1 ++ e.1, e.2)
    else none

mutual

/-- Parse one JSON value, returning it with the unconsumed rest. -/
def parseValue : Nat → List Char → Option (Json × List Char)
  | 0, _ => none
  | fuel + 1, cs =>
    match skipWs cs with
    | [] => none
    | c :: rest =>
      if c = '{' then
        match skipWs rest with
        | '}' :: r2 => some (Json.jobj [], r2)
        | r2 => parseMembers fuel r2 []
      else if c = '[' then
        match skipWs rest with
        | ']' :: r2 => some (Json.jarr [], r2)
        | r2 => parseElements fuel r2 []
      else if c = '"' then
        match scanStringBody (rest.length + 1) rest with
        | some (body, r2) => some (Json.jstr (String.mk body), r2)
        | none => none
      else if c = 't' then
        match rest with
        | 'r' :: 'u' :: 'e' :: r2 => some (Json.jbool true, r2)
        | _ => none
      else if c = 'f' then
        match rest with
        | 'a' :: 'l' :: 's' :: 'e' :: r2 => some (Json.jbool false, r2)
        | _ => none
      else if c = 'n' then
        match rest with
        | 'u' :: 'l' :: 'l' :: r2 => some (Json.jnull, r2)
        | _ => none
      else
        match scanNumber (c :: rest) with
        | some (txt, r2) => some (Json.jnum (String.mk txt), r2)
        | none => none

/-- Parse the members of a non-empty JSON object after its `{`. -/
def parseMembers : Nat → List Char → List (String × Json) →
    Option (Json × List Char)
  | 0, _, _ => none
  | fuel + 1, cs, acc =>
    match skipWs cs with
    | '"' :: rest =>
      match scanStringBody (rest.length + 1) rest with
      | some (key, r2) =>
        match skipWs r2 with
        | ':' :: r3 =>
          match parseValue fuel r3 with
          | some (v, r4) =>
            let acc2 := acc ++ [(String.mk key, v)]
            match skipWs r4 with
            | ',' :: r5 => parseMembers fuel r5 acc2
            | '}' :: r5 => some (Json.jobj acc2, r5)
            | _ => none
          | none => none
        | _ => none
      | none => none
    | _ => none

/-- Parse the elements of a non-empty JSON array after its `[`. -/
def parseElements : Nat → List Char → List Json → Option (Json × List Char)
  | 0, _, _ => none
  | fuel + 1, cs, acc =>
    match parseValue fuel cs with
    | some (v, r2) =>
      let acc2 := acc ++ [v]
      match skipWs r2 with
      | ',' :: r3 => parseElements fuel r3 acc2
      | ']' :: r3 => some (Json.jarr acc2, r3)
      | _ => none
    | none => none

end

/-- `JSON.parse` of one framed line: one value, then only trailing
whitespace.  The fuel `2 * length + 2` dominates the recursion depth, every
level of which consumes at least one character. -/
def parseJsonLine (cs : List Char) : Option Json :=
  match parseValue (2 * cs.length + 2) cs with
  | some (v, rest) => if skipWs rest = [] then some v else none
  | none => none

/-! ### The transport framer (`MCPClient.processBuffer`) -/

/-- Prepend a character to the first complete line of a split result, or to
the trailing remainder when no newline has been seen yet. -/
def consLine (c : Char) : List (List Char) × List Char →
    List (List Char) × List Char
  | ([], r) => ([], c :: r)
  | (l :: ls, r) => ((c :: l) :: ls, r)

/-- `buffer.split('\n')` with the popped last element: the complete
newline-terminated lines, and the trailing partial line that becomes the new
buffer. -/
def splitNl : List Char → List (List Char) × List Char
  | [] => ([], [])
  | c :: cs =>
    if c = '\n' then ([] :: (splitNl cs).1, (splitNl cs).2)
    else consLine c (splitNl cs)

/-- Per-line processing of `processBuffer`: a line that is all whitespace is
skipped silently (`if (line.trim())`), otherwise `JSON.parse` is attempted —
`some j` is a dispatched message, `none` a logged parse error (the `catch`
that ignores invalid JSON and continues with the next line). -/
def lineResults (ls : List (List Char)) : List (Option Json) :=
  ls.filterMap (fun l =>
    if l.all isWsChar then none else some (parseJsonLine l))

/-- One `data` event of `MCPClient`: the chunk is appended to the buffer,
the combined text is split on newlines, the trailing partial line is kept as
the new buffer, and each complete line is processed. -/
def processChunk (buffer chunk : List Char) :
    List Char × List (Option Json) :=
  let r := splitNl (buffer ++ chunk)
  (r.2, lineResults r.1)

/-! ### The RPC client (`MCPClient` in `src/agent.ts`)

The client's observable request-correlation state is `messageId` (the last
allocated id) and the key set of the `pendingRequests` map; the stored
`resolve`/`reject` callbacks are represented by the delivered `Outcome`s. -/

/-- The request-correlation state of `MCPClient`. -/
structure MCPClient where
  messageId : Nat
  pendingRequests : List Nat
deriving DecidableEq, Repr

/-- A terminal outcome delivered to the caller suspended on a request id:
`resolve(message.result)`, `reject(new Error(message.error…))`, or
`reject(new Error('Request timeout…'))`. -/
inductive Outcome
  | success (id : Nat)
  | rpcError (id : Nat)
  | timeoutError (id : Nat)
deriving DecidableEq, Repr

/-- The request id an outcome is delivered for. -/
def Outcome.reqId : Outcome → Nat
  | Outcome.success i => i
  | Outcome.rpcError i => i
  | Outcome.timeoutError i => i

/-- Look up a key in a parsed JSON object's field list; with duplicate keys
the last occurrence wins, as in `JSON.parse`. -/
def lookupField : List (String × Json) → String → Option Json
  | [], _ => none
  | (k, v) :: fs, key =>
    match lookupField fs key with
    | some v2 => some v2
    | none => if k = key then some v else none

/-- `message.x` on a parsed message: `none` models `undefined` (not an
object, or key absent). -/
def Json.getField : Json → String → Option Json
  | Json.jobj fs, key => lookupField fs key
  | _, _ => none

/-- Zero test on a JSON numeral text (all mantissa digits `0`). -/
def jsNumIsZero (s : String) : Bool :=
  (s.takeWhile (fun c => c ≠ 'e' ∧ c ≠ 'E')).all
    (fun c => !c.isDigit || c = '0')

/-- JavaScript truthiness of an optional field value: `undefined`, `null`,
`false`, `0` and `""` are falsy, everything else truthy. -/
def jtruthy : Option Json → Bool
  | none => false
  | some Json.jnull => false
  | some (Json.jbool b) => b
  | some (Json.jnum s) => !jsNumIsZero s
  | some (Json.jstr s) => s ≠ ""
  | some (Json.jarr _) => true
  | some (Json.jobj _) => true

/-- The numeric value of a plain decimal numeral, `none` otherwise. -/
def decimalToNat? (cs : List Char) : Option Nat :=
  if cs ≠ [] && cs.all Char.isDigit then
    some (cs.foldl (fun n c => n * 10 + (c.toNat - 48)) 0)
  else none

/-- The pending-table key denoted by a message's `id` field, if any.  The
client's own serializer writes ids as plain nonnegative integer numerals, so
a `pendingRequests.has(message.id)` lookup can only match such a numeral;
an absent id, `null`, a string, or any other shape matches no key.  (A
non-canonical numeral such as `1.0` denoting an issued id would compare
equal as a JavaScript number; number identity beyond canonical decimal
numerals is outside this model.) -/
def msgAsId (m : Json) : Option Nat :=
  match m.getField "id" with
  | some (Json.jnum s) => decimalToNat? s.data
  | _ => none

/-- The per-message dispatch of `MCPClient.processBuffer`: when
`message.id !== undefined && this.pendingRequests.has(message.id)`, the
entry is deleted and exactly one outcome is delivered — `rpcError` when
`message.error` is truthy, `success` otherwise.  Any other message (no id,
unknown id, a notification, a server-initiated request) falls through with
no state change and no delivery. -/
def dispatchMessage (c : MCPClient) (m : Json) : MCPClient × List Outcome :=
  match msgAsId m with
  | some i =>
    if c.pendingRequests.contains i then
      ({ c with pendingRequests := c.pendingRequests.erase i },
        [if jtruthy (m.getField "error") then Outcome.rpcError i
          else Outcome.success i])
    else (c, [])
  | none => (c, [])

/-- `MCPClient.sendRequest`, synchronous part: allocate `++this.messageId`,
register it in the pending table, write the request line.  Returns the new
state and the allocated id. -/
def sendRequest (c : MCPClient) : MCPClient × Nat :=
  let id := c.messageId + 1
  ({ messageId := id, pendingRequests := c.pendingRequests ++ [id] }, id)

/-- The timeout callback `sendRequest` registers for id `i`: if the entry is
still pending, delete it and reject with `TimeoutError`; otherwise (the
response won the race and already deleted it) do nothing. -/
def fireTimeout (c : MCPClient) (i : Nat) : MCPClient × List Outcome :=
  if c.pendingRequests.contains i then
    ({ c with pendingRequests := c.pendingRequests.erase i },
      [Outcome.timeoutError i])
  else (c, [])

/-- An event observable by the client's correlation state: a `sendRequest`
call, the arrival of one framed message, or a timeout firing. -/
inductive ClientEvent
  | send
  | recv (m : Json)
  | timeoutFire (i : Nat)

/-- One event step: the new state, the outcomes delivered to suspended
callers, and the request ids written to the subprocess's stdin. -/
def clientStep (c : MCPClient) : ClientEvent → MCPClient × List Outcome × List Nat
  | ClientEvent.send =>
      let r := sendRequest c
      (r.1, [], [r.2])
  | ClientEvent.recv m =>
      let r := dispatchMessage c m
      (r.1, r.2, [])
  | ClientEvent.timeoutFire i =>
      let r := fireTimeout c i
      (r.1, r.2, [])

/-- Run a sequence of events, accumulating all delivered outcomes. -/
def runClient (c : MCPClient) : List ClientEvent → MCPClient × List Outcome
  | [] => (c, [])
  | e :: es =>
      let r := clientStep c e
      let rest := runClient r.1 es
      (rest.1, r.2.1 ++ rest.2)

/-- Invariant of the correlation state: pending ids are distinct and never
exceed the id counter (they were all allocated from it). -/
def ClientInv (c : MCPClient) : Prop :=
  c.pendingRequests.Nodup ∧ ∀ i ∈ c.pendingRequests, i ≤ c.messageId

/-! ### Helper lemmas -/

theorem find?_id_none (id : String) (tasks : List Task)
    (h : id ∉ tasks.map Task.id) :
    tasks.find? (fun t => some t.id == some id) = none := by
  rw [List.find?_eq_none]
  intro t ht hb
  simp only [beq_iff_eq, Option.some.injEq] at hb
  exact h (List.mem_map.2 ⟨t, ht, hb⟩)

theorem findIdx?_id_none (id : String) (tasks : List Task)
    (h : id ∉ tasks.map Task.id) :
    tasks.findIdx? (fun t => some t.id == some id) = none := by
  rw [List.findIdx?_eq_none_iff]
  intro t ht
  by_contra hb
  simp only [Bool.not_eq_false, Option.some.injEq, beq_iff_eq] at hb
  exact h (List.mem_map.2 ⟨t, ht, hb⟩)

theorem mem_replaceFirst (p : Task → Bool) (t2 u : Task) (l : List Task)
    (h : u ∈ replaceFirst p t2 l) : u = t2 ∨ u ∈ l := by
  induction l with
  | nil => simp [replaceFirst] at h
  | cons t ts ih =>
      simp only [replaceFirst] at h
      by_cases hp : p t
      · simp [hp] at h
        rcases h with h | h
        · exact Or.inl h
        · exact Or.inr (List.mem_cons_of_mem _ h)
      · simp [hp] at h
        rcases h with h | h
        · exact Or.inr (by simp [h])
        · rcases ih h with h2 | h2
          · exact Or.inl h2
          · exact Or.inr (List.mem_cons_of_mem _ h2)

/-! ### Claim theorems: the task store -/

/-- C7: deleting a nonexistent id returns `false`, leaves the collection
unchanged and performs no save; updating the status of a nonexistent id
returns the not-found result (`null`), leaves the collection unchanged and
performs no save. -/
theorem claim_C7 (now : Int) (id : String) (st : TaskStatus)
    (tasks : List Task) (h : id ∉ tasks.map Task.id) :
    deleteTask (some id) tasks = (false, tasks, false) ∧
    updateTaskStatus now (some id) st tasks = (none, tasks, false) := by
  constructor
  · unfold deleteTask
    rw [findIdx?_id_none id tasks h]
  · unfold updateTaskStatus
    rw [find?_id_none id tasks h]

/-- Closed witness for C7: deleting and status-updating the absent id `"9"`
in a one-task store is a no-op with a negative result. -/
theorem claim_C7_witness :
    deleteTask (some "9")
        [⟨"1", some "t", none, Priority.low, TaskStatus.pending, none, none,
          0, 0⟩] =
      (false,
        [⟨"1", some "t", none, Priority.low, TaskStatus.pending, none, none,
          0, 0⟩], false) ∧
    updateTaskStatus 5 (some "9") TaskStatus.completed
        [⟨"1", some "t", none, Priority.low, TaskStatus.pending, none, none,
          0, 0⟩] =
      (none,
        [⟨"1", some "t", none, Priority.low, TaskStatus.pending, none, none,
          0, 0⟩], false) :=
  claim_C7 5 "9" TaskStatus.completed _ (by decide)

/-- The task of the C2 scenario: id `"1"`, status `pending`, due
`2020-01-01T00:00:00Z` (epoch-millisecond value `1577836800000`). -/
def scenTask (c u : Int) : Task :=
  ⟨"1", some "t", none, Priority.medium, TaskStatus.pending,
    some 1577836800000, none, c, u⟩

/-- The scenario task after the overdue derivation at instant `now`. -/
def scenTaskOverdue (now c _u : Int) : Task :=
  ⟨"1", some "t", none, Priority.medium, TaskStatus.overdue,
    some 1577836800000, none, c, now⟩

/-- C2: the derived-status algorithm.  (1) A task with a due date, a status
other than completed, a due date strictly in the past and a status not
already overdue is set to overdue with `updatedAt` refreshed; (2) no change
means no save and (3) any change means the collection is persisted (exactly
once — the model's `Bool` records the single `saveTasks` call); (4)–(5) the
reads run it via the implicit reload; (6) a successful load maps every task
through the derivation; (7) the mechanism never reverts an overdue status;
(8) the spec's scenario: the 2020-due pending task is overdue after one
reload at any later instant. -/
theorem claim_C2 :
    (∀ now t d, t.dueDate = some d → t.status ≠ TaskStatus.completed →
      d < now → t.status ≠ TaskStatus.overdue →
      overdueStep now t =
        { t with status := TaskStatus.overdue, updatedAt := now }) ∧
    (∀ now ts, (∀ t ∈ ts, overdueChanged now t = false) →
      (updateOverdueStatus now ts).2 = false) ∧
    (∀ now ts t, t ∈ ts → overdueChanged now t = true →
      (updateOverdueStatus now ts).2 = true) ∧
    (∀ doc now saveOk,
      getAllTasks doc now saveOk = (loadTasks doc now saveOk).1) ∧
    (∀ doc now todayStart saveOk,
      getSummary doc now todayStart saveOk =
        summarize now todayStart (loadTasks doc now saveOk).1) ∧
    (∀ now ts,
      loadTasks (Except.ok ts) now true =
        (ts.map (overdueStep now), false)) ∧
    (∀ now t, t.status = TaskStatus.overdue →
      (overdueStep now t).status = TaskStatus.overdue) ∧
    (∀ now c u, 1577836800000 < now →
      (loadTasks (Except.ok [scenTask c u]) now true).1 =
        [scenTaskOverdue now c u]) := by
  refine ⟨?_, ?_, ?_, ?_, ?_, ?_, ?_, ?_⟩
  · intro now t d hd hc hlt ho
    simp [overdueStep, overdueChanged, hd, hc, hlt, ho]
  · intro now ts h
    simp only [updateOverdueStatus, List.any_eq_false]
    intro t ht
    simp [h t ht]
  · intro now ts t ht h
    simp only [updateOverdueStatus, List.any_eq_true]
    exact ⟨t, ht, h⟩
  · intro doc now saveOk; rfl
  · intro doc now todayStart saveOk; rfl
  · intro now ts
    simp [loadTasks, updateOverdueStatus]
  · intro now t h
    unfold overdueStep overdueChanged
    cases t.dueDate <;> simp [h]
  · intro now c u h
    simp [loadTasks, updateOverdueStatus, overdueStep, overdueChanged,
      scenTask, scenTaskOverdue, h]

/-- Closed witness for C2: the scenario instantiated at
`now = 1700000000000` (well after the 2020 due date). -/
theorem claim_C2_witness :
    (loadTasks (Except.ok [scenTask 10 10]) 1700000000000 true).1 =
      [scenTaskOverdue 1700000000000 10 10] :=
  claim_C2.2.2.2.2.2.2.2 1700000000000 10 10 (by decide)

/-- The `Omit`-fields the C4 scenario supplies: title `"X"`, priority
`high` (the handler adds status `pending`). -/
def c4Fields : NewTaskFields :=
  ⟨some "X", none, Priority.high, TaskStatus.pending, none, none⟩

/-- A pre-existing task whose id is the decimal rendering of the instant at
which `addTask` is invoked. -/
def c4Existing : Task :=
  ⟨"5", some "old", none, Priority.low, TaskStatus.pending, none, none, 0, 0⟩

/-- C4 counterexample: `addTask` computes the new id as
`Date.now().toString()` without any uniqueness check, so in a store that
already contains a task with id `"5"`, an add at epoch-millisecond 5
assigns that same id — the claimed freshness for every store state is
false. -/
theorem claim_C4_counterexample :
    (addTask 5 c4Fields [c4Existing]).1.id ∈ [c4Existing].map Task.id := by
  decide

/-- The `NewTaskFields` built by the `add_task` case of the tool handler
from the raw arguments: status hard-coded `pending`, priority defaulted to
`medium` when absent. -/
def addArgsFields (args : ToolArgs) : NewTaskFields :=
  ⟨args.title, args.description, args.priority.getD Priority.medium,
    TaskStatus.pending, args.dueDate, args.tags⟩

/-- C4 (amended): the id `addTask` assigns is the current epoch-millisecond
instant rendered as a decimal string; whenever no existing task already
carries that string (in particular whenever all existing ids were assigned
at earlier instants) the id is fresh.  Both timestamps are set to the same
current instant, the record is appended and persisted immediately (one
successful save) and returned; an `add_task` tool call returns the created
record with status `pending`. -/
theorem claim_C4 (now : Int) (f : NewTaskFields) (tasks : List Task)
    (h : toString now ∉ tasks.map Task.id) :
    (addTask now f tasks).1.id = toString now ∧
    (addTask now f tasks).1.id ∉ tasks.map Task.id ∧
    (addTask now f tasks).1.createdAt = (addTask now f tasks).1.updatedAt ∧
    (addTask now f tasks).2 = tasks ++ [(addTask now f tasks).1] ∧
    (addTaskRun true now f tasks).2 = Except.ok (addTask now f tasks).1 ∧
    (∀ doc todayStart args,
      handleToolCall doc now todayStart true tasks "add_task" args =
        (⟨ToolText.createdMsg (addTask now (addArgsFields args) tasks).1,
            false⟩,
          (addTask now (addArgsFields args) tasks).2)) ∧
    (∀ args, (addTask now (addArgsFields args) tasks).1.status =
      TaskStatus.pending) := by
  refine ⟨rfl, h, rfl, rfl, rfl, ?_, fun args => rfl⟩
  intro doc todayStart args
  rfl

/-- Closed witness for C4: adding at instant 7 into the store holding only
`c4Existing` (id `"5"`). -/
theorem claim_C4_witness :
    (addTask 7 c4Fields [c4Existing]).1.id ∉ [c4Existing].map Task.id ∧
    (addTask 7 c4Fields [c4Existing]).1.createdAt =
      (addTask 7 c4Fields [c4Existing]).1.updatedAt :=
  ⟨(claim_C4 7 c4Fields [c4Existing] (by decide)).2.1,
    (claim_C4 7 c4Fields [c4Existing] (by decide)).2.2.1⟩

/-- A task loaded from the document whose equal timestamps lie in the
future of the operation instants used below: it satisfies
`updatedAt >= createdAt`, but a status update or the overdue derivation at
an earlier clock reading writes `updatedAt := now < createdAt`. -/
def c8Future : Task :=
  ⟨"1", some "t", none, Priority.low, TaskStatus.pending, some 10, none,
    100, 100⟩

/-- C8 counterexample: preservation of `updatedAt >= createdAt` does not
follow from that invariant alone.  The store `[c8Future]` satisfies it
(`createdAt = updatedAt = 100`), yet `updateTaskStatus` at instant 50 sets
the task's `updatedAt` to 50 < 100, and the overdue derivation of a load at
instant 50 (the task's due date 10 is already past) does the same — so the
claim as stated, with the invariant on loaded tasks as its only assumption,
is false. -/
theorem claim_C8_counterexample :
    c8Future.createdAt ≤ c8Future.updatedAt ∧
    (updateTaskStatus 50 (some "1") TaskStatus.completed
      [c8Future]).2.1.all (fun t => decide (t.createdAt ≤ t.updatedAt)) =
      false ∧
    (loadTasks (Except.ok [c8Future]) 50 true).1.all
      (fun t => decide (t.createdAt ≤ t.updatedAt)) = false := by
  refine ⟨by decide, by decide, by decide⟩

/-- C8 (amended): `updatedAt >= createdAt` is preserved by every operation
that touches a task: (1) a freshly added task satisfies it with equality;
(2) `addTask` keeps it for the whole collection; (3) `updateTaskStatus` and
(4) the overdue derivation keep it, provided — in addition to the invariant
holding for the loaded tasks — that the wall clock at the operation is not
earlier than the stored creation instants (as in any execution in which the
document's `createdAt` values were written at past instants of the same
clock; a document edited by an independent writer to hold future timestamps
escapes the guarantee). -/
theorem claim_C8 :
    (∀ now f tasks,
      (addTask now f tasks).1.createdAt ≤ (addTask now f tasks).1.updatedAt) ∧
    (∀ now f tasks, (∀ t ∈ tasks, t.createdAt ≤ t.updatedAt) →
      ∀ u ∈ (addTask now f tasks).2, u.createdAt ≤ u.updatedAt) ∧
    (∀ now id st tasks, (∀ t ∈ tasks, t.createdAt ≤ t.updatedAt) →
      (∀ t ∈ tasks, t.createdAt ≤ now) →
      ∀ u ∈ (updateTaskStatus now id st tasks).2.1,
        u.createdAt ≤ u.updatedAt) ∧
    (∀ now tasks, (∀ t ∈ tasks, t.createdAt ≤ t.updatedAt) →
      (∀ t ∈ tasks, t.createdAt ≤ now) →
      ∀ u ∈ (updateOverdueStatus now tasks).1,
        u.createdAt ≤ u.updatedAt) := by
  refine ⟨fun now f tasks => le_refl _, ?_, ?_, ?_⟩
  · intro now f tasks h u hu
    rw [addTask, List.mem_append] at hu
    rcases hu with hu | hu
    · exact h u hu
    · simp only [List.mem_singleton] at hu
      subst hu
      exact le_refl _
  · intro now id st tasks h hc u hu
    unfold updateTaskStatus at hu
    cases hf : tasks.find? (fun t => some t.id == id) with
    | none =>
        rw [hf] at hu
        exact h u hu
    | some t =>
        rw [hf] at hu
        simp only at hu
        rcases mem_replaceFirst _ _ _ _ hu with h2 | h2
        · subst h2
          exact hc t (List.mem_of_find?_eq_some hf)
        · exact h u h2
  · intro now tasks h hc u hu
    unfold updateOverdueStatus at hu
    simp only [List.mem_map] at hu
    obtain ⟨t, ht, rfl⟩ := hu
    unfold overdueStep
    by_cases hg : overdueChanged now t = true
    · simp only [hg, if_true]
      exact hc t ht
    · simp only [hg, if_false]
      exact h t ht

/-- Closed witness for C8: the status update of the single stored task at a
later instant keeps `createdAt ≤ updatedAt`. -/
theorem claim_C8_witness :
    (⟨"5", some "old", none, Priority.low, TaskStatus.completed, none, none,
      0, 7⟩ : Task).createdAt ≤
    (⟨"5", some "old", none, Priority.low, TaskStatus.completed, none, none,
      0, 7⟩ : Task).updatedAt :=
  claim_C8.2.2.1 7 (some "5") TaskStatus.completed [c4Existing]
    (by decide) (by decide) _ (by decide)

/-! ### Claim C6: the summary aggregate -/

/-- Status test used to characterize the summary counters. -/
def statusIs (s : TaskStatus) (t : Task) : Bool := t.status == s

/-- Priority test used to characterize the summary counters. -/
def priorityIs (p : Priority) (t : Task) : Bool := t.priority == p

/-- Membership test of the upcoming-tasks list: due within
`[now, now + 24h]` and not completed. -/
def upcomingPred (now : Int) (t : Task) : Bool :=
  match t.dueDate with
  | some d =>
      decide (now ≤ d) && decide (d ≤ now + dayMs) &&
        (t.status != TaskStatus.completed)
  | none => false

/-- Membership test of the today-tasks list: due within the local calendar
day `[todayStart, todayStart + 24h)` and not completed. -/
def todayPred (todayStart : Int) (t : Task) : Bool :=
  match t.dueDate with
  | some d =>
      decide (todayStart ≤ d) && decide (d < todayStart + dayMs) &&
        (t.status != TaskStatus.completed)
  | none => false

theorem summaryStep_eq (now todayStart : Int) (s : TaskSummary) (t : Task) :
    summaryStep now todayStart s t =
      { total := s.total
        byStatus := bumpStatus s.byStatus t.status
        byPriority := bumpPriority s.byPriority t.priority
        overdueTasks :=
          s.overdueTasks ++
            (if statusIs TaskStatus.overdue t then [t] else [])
        upcomingTasks :=
          s.upcomingTasks ++ (if upcomingPred now t then [t] else [])
        todayTasks :=
          s.todayTasks ++ (if todayPred todayStart t then [t] else []) } := by
  unfold summaryStep statusIs upcomingPred todayPred
  cases ht : t.dueDate <;>
    simp only [ht, beq_iff_eq, Bool.and_eq_true, decide_eq_true_eq,
      bne_iff_ne] <;>
    split_ifs <;>
    simp_all

theorem foldl_summary_nat (now todayStart : Int) (f : TaskSummary → Nat)
    (p : Task → Bool)
    (hf : ∀ s t, f (summaryStep now todayStart s t) =
      f s + (if p t then 1 else 0)) :
    ∀ (l : List Task) (acc : TaskSummary),
      f (l.foldl (summaryStep now todayStart) acc) = f acc + l.countP p := by
  intro l
  induction l with
  | nil => intro acc; simp
  | cons t ts ih =>
      intro acc
      rw [List.foldl_cons, ih, hf, List.countP_cons]
      by_cases hp : p t = true <;> simp [hp] <;> omega

theorem foldl_summary_list (now todayStart : Int)
    (g : TaskSummary → List Task) (p : Task → Bool)
    (hg : ∀ s t, g (summaryStep now todayStart s t) =
      g s ++ (if p t then [t] else [])) :
    ∀ (l : List Task) (acc : TaskSummary),
      g (l.foldl (summaryStep now todayStart) acc) = g acc ++ l.filter p := by
  intro l
  induction l with
  | nil => intro acc; simp
  | cons t ts ih =>
      intro acc
      rw [List.foldl_cons, ih, hg, List.filter_cons]
      by_cases hp : p t = true <;> simp [hp]

theorem foldl_summary_total (now todayStart : Int) :
    ∀ (l : List Task) (acc : TaskSummary),
      (l.foldl (summaryStep now todayStart) acc).total = acc.total := by
  intro l
  induction l with
  | nil => intro acc; rfl
  | cons t ts ih =>
      intro acc
      rw [List.foldl_cons, ih, summaryStep_eq]

/-- C6: the summary reports the total task count; a by-status breakdown in
which all four status keys are present (they are the four fields of
`StatusCounts`, zero-filled by initialization and therefore zero whenever no
task carries the status); a by-priority breakdown over the four priorities;
the tasks currently in overdue status; the tasks due within the next 24
hours from `now` and not completed; and the tasks due within the current
local calendar day's `[00:00, 24:00)` window (`todayStart` being local
midnight) and not completed — all in document order. -/
theorem claim_C6 (now todayStart : Int) (tasks : List Task) :
    (summarize now todayStart tasks).total = tasks.length ∧
    (summarize now todayStart tasks).byStatus.pending =
      tasks.countP (statusIs TaskStatus.pending) ∧
    (summarize now todayStart tasks).byStatus.in_progress =
      tasks.countP (statusIs TaskStatus.in_progress) ∧
    (summarize now todayStart tasks).byStatus.completed =
      tasks.countP (statusIs TaskStatus.completed) ∧
    (summarize now todayStart tasks).byStatus.overdue =
      tasks.countP (statusIs TaskStatus.overdue) ∧
    (summarize now todayStart tasks).byPriority.low =
      tasks.countP (priorityIs Priority.low) ∧
    (summarize now todayStart tasks).byPriority.medium =
      tasks.countP (priorityIs Priority.medium) ∧
    (summarize now todayStart tasks).byPriority.high =
      tasks.countP (priorityIs Priority.high) ∧
    (summarize now todayStart tasks).byPriority.critical =
      tasks.countP (priorityIs Priority.critical) ∧
    (summarize now todayStart tasks).overdueTasks =
      tasks.filter (statusIs TaskStatus.overdue) ∧
    (summarize now todayStart tasks).upcomingTasks =
      tasks.filter (upcomingPred now) ∧
    (summarize now todayStart tasks).todayTasks =
      tasks.filter (todayPred todayStart) := by
  unfold summarize
  refine ⟨foldl_summary_total now todayStart tasks _, ?_, ?_, ?_, ?_, ?_,
    ?_, ?_, ?_, ?_, ?_, ?_⟩
  · rw [foldl_summary_nat now todayStart (fun s => s.byStatus.pending)
      (statusIs TaskStatus.pending) ?_ tasks]
    · simp
    · intro s t
      rw [summaryStep_eq]
      unfold statusIs bumpStatus
      cases t.status <;> simp
  · rw [foldl_summary_nat now todayStart (fun s => s.byStatus.in_progress)
      (statusIs TaskStatus.in_progress) ?_ tasks]
    · simp
    · intro s t
      rw [summaryStep_eq]
      unfold statusIs bumpStatus
      cases t.status <;> simp
  · rw [foldl_summary_nat now todayStart (fun s => s.byStatus.completed)
      (statusIs TaskStatus.completed) ?_ tasks]
    · simp
    · intro s t
      rw [summaryStep_eq]
      unfold statusIs bumpStatus
      cases t.status <;> simp
  · rw [foldl_summary_nat now todayStart (fun s => s.byStatus.overdue)
      (statusIs TaskStatus.overdue) ?_ tasks]
    · simp
    · intro s t
      rw [summaryStep_eq]
      unfold statusIs bumpStatus
      cases t.status <;> simp
  · rw [foldl_summary_nat now todayStart (fun s => s.byPriority.low)
      (priorityIs Priority.low) ?_ tasks]
    · simp
    · intro s t
      rw [summaryStep_eq]
      unfold priorityIs bumpPriority
      cases t.priority <;> simp
  · rw [foldl_summary_nat now todayStart (fun s => s.byPriority.medium)
      (priorityIs Priority.medium) ?_ tasks]
    · simp
    · intro s t
      rw [summaryStep_eq]
      unfold priorityIs bumpPriority
      cases t.priority <;> simp
  · rw [foldl_summary_nat now todayStart (fun s => s.byPriority.high)
      (priorityIs Priority.high) ?_ tasks]
    · simp
    · intro s t
      rw [summaryStep_eq]
      unfold priorityIs bumpPriority
      cases t.priority <;> simp
  · rw [foldl_summary_nat now todayStart (fun s => s.byPriority.critical)
      (priorityIs Priority.critical) ?_ tasks]
    · simp
    · intro s t
      rw [summaryStep_eq]
      unfold priorityIs bumpPriority
      cases t.priority <;> simp
  · rw [foldl_summary_list now todayStart (fun s => s.overdueTasks)
      (statusIs TaskStatus.overdue) ?_ tasks]
    · simp
    · intro s t
      rw [summaryStep_eq]
  · rw [foldl_summary_list now todayStart (fun s => s.upcomingTasks)
      (upcomingPred now) ?_ tasks]
    · simp
    · intro s t
      rw [summaryStep_eq]
  · rw [foldl_summary_list now todayStart (fun s => s.todayTasks)
      (todayPred todayStart) ?_ tasks]
    · simp
    · intro s t
      rw [summaryStep_eq]

/-! ### Claims C5 and C9: dispatcher validation and persistence failures -/

theorem find?_optnone (tasks : List Task) :
    tasks.find? (fun t => some t.id == none) = none := by
  rw [List.find?_eq_none]
  intro t ht
  simp

theorem findIdx?_optnone (tasks : List Task) :
    tasks.findIdx? (fun t => some t.id == none) = none := by
  rw [List.findIdx?_eq_none_iff]
  intro t ht
  simp

theorem find?_false (l : List Task) : l.find? (fun _ => false) = none := by
  rw [List.find?_eq_none]
  simp

theorem findIdx?_false (l : List Task) :
    l.findIdx? (fun _ => false) = none := by
  rw [List.findIdx?_eq_none_iff]
  simp

/-- The eight tool names the `switch` recognizes. -/
def knownTools : List String :=
  ["get_tasks", "get_task_summary", "get_task_by_id", "add_task",
    "update_task_status", "delete_task", "get_overdue_tasks",
    "get_today_tasks"]

/-- C5 counterexample: the dispatcher performs no presence validation for
`add_task` — a call with no `title` and no `priority` (both declared
`required` in the tool's own input schema) is not error-flagged: it succeeds
and creates a title-less task, so the claim that a missing required argument
produces an error-flagged result is false. -/
theorem claim_C5_counterexample :
    (handleToolCall (Except.ok []) 0 0 true [] "add_task"
      ({} : ToolArgs)).1.isError = false := rfl

/-- C5 (amended): an invocation naming an unknown tool produces an
error-flagged result and touches nothing; for the id-requiring tools
(`get_task_by_id`, `update_task_status`, `delete_task`) a missing id
produces an error-flagged not-found result (and the two mutating ones leave
the collection unchanged); nothing is thrown past the dispatcher boundary —
even a failing save is caught and rendered as an error-flagged result.  The
dispatcher does not, however, validate `add_task`'s required `title` and
`priority`: a call missing both succeeds with a defaulted priority. -/
theorem claim_C5 (doc : Except String (List Task)) (now todayStart : Int)
    (saveOk : Bool) (tasks : List Task) (args : ToolArgs) :
    (∀ name, name ∉ knownTools →
      handleToolCall doc now todayStart saveOk tasks name args =
        (⟨ToolText.unknownToolMsg name, true⟩, tasks)) ∧
    (args.id = none →
      (handleToolCall doc now todayStart saveOk tasks "get_task_by_id"
        args).1.isError = true) ∧
    (args.id = none →
      handleToolCall doc now todayStart saveOk tasks "update_task_status"
        args = (⟨ToolText.notFoundMsg, true⟩, tasks)) ∧
    (args.id = none →
      handleToolCall doc now todayStart saveOk tasks "delete_task" args =
        (⟨ToolText.notFoundMsg, true⟩, tasks)) ∧
    (handleToolCall doc now todayStart false tasks "add_task" args =
      (⟨ToolText.caughtErrorMsg, true⟩,
        (addTask now (addArgsFields args) tasks).2)) ∧
    (args.title = none → args.priority = none →
      (handleToolCall doc now todayStart true tasks "add_task"
        args).1.isError = false) := by
  refine ⟨?_, ?_, ?_, ?_, rfl, fun _ _ => rfl⟩
  · intro name h
    simp only [knownTools, List.mem_cons, List.not_mem_nil, or_false,
      not_or] at h
    obtain ⟨h1, h2, h3, h4, h5, h6, h7, h8⟩ := h
    unfold handleToolCall
    simp [h1, h2, h3, h4, h5, h6, h7, h8]
  · intro h
    unfold handleToolCall
    simp [h, findTaskById, find?_false]
  · intro h
    unfold handleToolCall
    simp [h, updateTaskStatus, find?_false]
  · intro h
    unfold handleToolCall
    simp [h, deleteTask, findIdx?_false]

/-- Closed witness for C5: an unknown tool name and a `delete_task` call
with no id, both against the empty store. -/
theorem claim_C5_witness :
    handleToolCall (Except.ok []) 0 0 true [] "frobnicate" ({} : ToolArgs) =
      (⟨ToolText.unknownToolMsg "frobnicate", true⟩, []) ∧
    handleToolCall (Except.ok []) 0 0 true [] "delete_task" ({} : ToolArgs) =
      (⟨ToolText.notFoundMsg, true⟩, []) :=
  ⟨(claim_C5 (Except.ok []) 0 0 true [] {}).1 "frobnicate" (by decide),
    (claim_C5 (Except.ok []) 0 0 true [] {}).2.2.2.1 rfl⟩

/-- C9 counterexample: with an unwritable path (`saveOk = false`),
`addTask`'s unguarded `saveTasks` call lets the `writeFileSync` exception
escape the store — the claim that no exception escapes the store on a save
failure is false. -/
theorem claim_C9_counterexample :
    (addTaskRun false 0 c4Fields []).2 = Except.error () := rfl

/-- C9 (amended): an invalid existing document on load is reported to the
operator and the store falls back to the empty collection without throwing;
a save failure raised inside the load-time overdue derivation is likewise
caught within `loadTasks` (reported, empty fallback).  A save failure in
`addTask`, however, escapes the store (with the in-memory push already
applied); it is the tool-call handler's `catch` that converts it into an
error-flagged result, so the process does not crash. -/
theorem claim_C9 :
    (∀ e now saveOk, loadTasks (Except.error e) now saveOk = ([], true)) ∧
    (∀ now ts t, t ∈ ts → overdueChanged now t = true →
      loadTasks (Except.ok ts) now false = ([], true)) ∧
    (∀ now f ts, (addTaskRun false now f ts).2 = Except.error () ∧
      (addTaskRun false now f ts).1 = (addTask now f ts).2) ∧
    (∀ doc now todayStart ts args,
      handleToolCall doc now todayStart false ts "add_task" args =
        (⟨ToolText.caughtErrorMsg, true⟩,
          (addTask now (addArgsFields args) ts).2)) := by
  refine ⟨fun e now saveOk => rfl, ?_, fun now f ts => ⟨rfl, rfl⟩,
    fun doc now todayStart ts args => rfl⟩
  intro now ts t ht h
  have ha : ts.any (overdueChanged now) = true := List.any_eq_true.2 ⟨t, ht, h⟩
  unfold loadTasks updateOverdueStatus
  simp [ha]

/-- Closed witness for C9: loading the 2020-due pending task with a failing
save falls back to the empty collection with the error reported. -/
theorem claim_C9_witness :
    loadTasks (Except.ok [scenTask 0 0]) 1700000000000 false = ([], true) :=
  claim_C9.2.1 1700000000000 [scenTask 0 0] (scenTask 0 0)
    (by decide) (by decide)

/-! ### Claim C3: the framer -/

theorem splitNl_append (a b : List Char) :
    splitNl (a ++ b) =
      ((splitNl a).1 ++ (splitNl ((splitNl a).2 ++ b)).1,
        (splitNl ((splitNl a).2 ++ b)).2) := by
  induction a with
  | nil => simp [splitNl]
  | cons c a ih =>
      rw [List.cons_append, splitNl, splitNl, ih]
      by_cases hc : c = '\n'
      · simp [hc]
      · simp only [hc, if_false]
        rcases hsa : splitNl a with ⟨ls, r⟩
        cases ls with
        | nil =>
            simp only [consLine, List.nil_append]
            rw [List.cons_append, splitNl]
            simp only [hc, if_false]
            rcases hX : splitNl (r ++ b) with ⟨xs, xr⟩
            cases xs <;> simp [consLine]
        | cons l ls2 =>
            rcases hX : splitNl (r ++ b) with ⟨xs, xr⟩
            simp [consLine, hX]

theorem lineResults_append (x y : List (List Char)) :
    lineResults (x ++ y) = lineResults x ++ lineResults y :=
  List.filterMap_append x y _

/-- The two chunks of the C3 scenario: a JSON-RPC response split
mid-message, the second chunk carrying the newline terminator. -/
def c3Chunk1 : List Char := "\x7b\"jsonrpc\":\"2.0\",\"id\":1,\"resu".data

/-- Second chunk of the C3 scenario. -/
def c3Chunk2 : List Char := "lt\":5\x7d\n".data

/-- The single message the scenario's reassembled line parses to. -/
def c3Msg : Json :=
  Json.jobj
    [("jsonrpc", Json.jstr "2.0"), ("id", Json.jnum "1"),
      ("result", Json.jnum "5")]

/-- C3: (1) framing is chunk-boundary independent — processing `c1` then
`c2` from any buffer emits exactly the lines of processing `c1 ++ c2` at
once, so incomplete trailing data is buffered across chunk boundaries and
each newline-terminated line yields exactly one result; (2)–(3) the
scenario: the first half of a JSON object followed by the rest plus a
newline yields exactly one message and no parse failure; (4) a line that
fails to parse is recorded as a logged skip (`none`), never a fatal error,
and the following line is still processed. -/
theorem claim_C3 :
    (∀ b c1 c2 : List Char,
      processChunk b (c1 ++ c2) =
        ((processChunk (processChunk b c1).1 c2).1,
          (processChunk b c1).2 ++
            (processChunk (processChunk b c1).1 c2).2)) ∧
    processChunk [] c3Chunk1 = (c3Chunk1, []) ∧
    processChunk (processChunk [] c3Chunk1).1 c3Chunk2 =
      ([], [some c3Msg]) ∧
    processChunk [] ("garbage\n\x7b\"a\":1\x7d\n".data) =
      ([], [none, some (Json.jobj [("a", Json.jnum "1")])]) := by
  refine ⟨?_, rfl, rfl, rfl⟩
  intro b c1 c2
  simp only [processChunk]
  rw [← List.append_assoc, splitNl_append (b ++ c1) c2]
  simp [lineResults_append]

/-! ### Claims C1 and C10: request correlation -/

theorem contains_eq_true_iff (l : List Nat) (a : Nat) :
    l.contains a = true ↔ a ∈ l := by
  simp

theorem contains_eq_false (l : List Nat) (a : Nat) (h : a ∉ l) :
    l.contains a = false := by
  rw [Bool.eq_false_iff]
  intro hc
  exact h ((contains_eq_true_iff _ _).1 hc)

theorem clientStep_send (c : MCPClient) :
    clientStep c ClientEvent.send =
      (⟨c.messageId + 1, c.pendingRequests ++ [c.messageId + 1]⟩,
        [], [c.messageId + 1]) := rfl

theorem clientStep_recv (c : MCPClient) (m : Json) :
    clientStep c (ClientEvent.recv m) =
      ((dispatchMessage c m).1, (dispatchMessage c m).2, []) := rfl

theorem clientStep_timeoutFire (c : MCPClient) (j : Nat) :
    clientStep c (ClientEvent.timeoutFire j) =
      ((fireTimeout c j).1, (fireTimeout c j).2, []) := rfl

theorem dispatchMessage_none (c : MCPClient) (m : Json)
    (hm : msgAsId m = none) : dispatchMessage c m = (c, []) := by
  unfold dispatchMessage
  rw [hm]

theorem dispatchMessage_not_pending (c : MCPClient) (m : Json) (i : Nat)
    (hm : msgAsId m = some i) (h : i ∉ c.pendingRequests) :
    dispatchMessage c m = (c, []) := by
  unfold dispatchMessage
  rw [hm]
  simp [h]

theorem dispatchMessage_pending (c : MCPClient) (m : Json) (i : Nat)
    (hm : msgAsId m = some i) (h : i ∈ c.pendingRequests) :
    dispatchMessage c m =
      ({ c with pendingRequests := c.pendingRequests.erase i },
        [if jtruthy (m.getField "error") then Outcome.rpcError i
          else Outcome.success i]) := by
  unfold dispatchMessage
  rw [hm]
  simp [h]

theorem fireTimeout_pending (c : MCPClient) (i : Nat)
    (h : i ∈ c.pendingRequests) :
    fireTimeout c i =
      ({ c with pendingRequests := c.pendingRequests.erase i },
        [Outcome.timeoutError i]) := by
  unfold fireTimeout
  simp [h]

theorem fireTimeout_not_pending (c : MCPClient) (i : Nat)
    (h : i ∉ c.pendingRequests) :
    fireTimeout c i = (c, []) := by
  unfold fireTimeout
  simp [h]

theorem sendRequest_inv (c : MCPClient) (h : ClientInv c) :
    ClientInv ⟨c.messageId + 1, c.pendingRequests ++ [c.messageId + 1]⟩ := by
  constructor
  · refine List.Nodup.append h.1 (List.nodup_singleton _) ?_
    intro x hx hx2
    simp only [List.mem_singleton] at hx2
    have := h.2 x hx
    omega
  · intro j hj
    show j ≤ c.messageId + 1
    rcases List.mem_append.1 hj with hj | hj
    · have := h.2 j hj
      omega
    · simp only [List.mem_singleton] at hj
      omega

theorem erase_inv (c : MCPClient) (j : Nat) (h : ClientInv c) :
    ClientInv { c with pendingRequests := c.pendingRequests.erase j } :=
  ⟨h.1.erase j, fun x hx => h.2 x (List.erase_subset _ _ hx)⟩

/-- The delivered outcome of a matched response carries the matched id. -/
theorem respOutcome_reqId (m : Json) (i : Nat) :
    (if jtruthy (m.getField "error") then Outcome.rpcError i
      else Outcome.success i).reqId = i := by
  by_cases hj : jtruthy (m.getField "error") = true <;>
    simp [hj, Outcome.reqId]

theorem timeoutOutcome_reqId (j : Nat) :
    (Outcome.timeoutError j).reqId = j := rfl

/-- Once `i` is not in the pending table (and not above the id counter), no
later event delivers an outcome for it: responses and timeouts for `i` find
no entry, and `send` allocates only strictly larger fresh ids. -/
theorem runClient_absent (i : Nat) :
    ∀ (evs : List ClientEvent) (c : MCPClient), ClientInv c →
      i ∉ c.pendingRequests → i ≤ c.messageId →
      (runClient c evs).2.countP (fun o => o.reqId == i) = 0 := by
  intro evs
  induction evs with
  | nil => intro c _ _ _; rfl
  | cons e es ih =>
      intro c h hn hle
      rw [runClient, List.countP_append]
      cases e with
      | send =>
          rw [clientStep_send]
          simp only [List.countP_nil, Nat.zero_add]
          refine ih _ (sendRequest_inv c h) ?_
            (by show i ≤ c.messageId + 1; omega)
          intro hmem
          rcases List.mem_append.1 hmem with hj | hj
          · exact hn hj
          · simp only [List.mem_singleton] at hj
            omega
      | recv m =>
          cases hm : msgAsId m with
          | none =>
              simp only [clientStep_recv, dispatchMessage_none c m hm]
              simpa using ih c h hn hle
          | some j =>
              by_cases hc : j ∈ c.pendingRequests
              · have hji : j ≠ i := fun e => hn (e ▸ hc)
                simp only [clientStep_recv,
                  dispatchMessage_pending c m j hm hc]
                have h1 : List.countP (fun o => o.reqId == i)
                    [if jtruthy (m.getField "error") then Outcome.rpcError j
                      else Outcome.success j] = 0 := by
                  simp [List.countP_cons, respOutcome_reqId, hji]
                rw [h1, Nat.zero_add]
                exact ih _ (erase_inv c j h)
                  (fun hmem => hn (List.erase_subset _ _ hmem)) hle
              · simp only [clientStep_recv,
                  dispatchMessage_not_pending c m j hm hc]
                simpa using ih c h hn hle
      | timeoutFire j =>
          by_cases hc : j ∈ c.pendingRequests
          · have hji : j ≠ i := fun e => hn (e ▸ hc)
            simp only [clientStep_timeoutFire, fireTimeout_pending c j hc]
            have h1 : List.countP (fun o => o.reqId == i)
                [Outcome.timeoutError j] = 0 := by
              simp [List.countP_cons, timeoutOutcome_reqId, hji]
            rw [h1, Nat.zero_add]
            exact ih _ (erase_inv c j h)
              (fun hmem => hn (List.erase_subset _ _ hmem)) hle
          · simp only [clientStep_timeoutFire,
              fireTimeout_not_pending c j hc]
            simpa using ih c h hn hle

/-- C1: for every request id in the pending table of an invariant-satisfying
client state, every event sequence in which that id's timeout eventually
fires (as a registered `setTimeout` always does) delivers exactly one
terminal outcome for the id — a success resolution, an `RpcError` carrying
the remote error payload, or a `TimeoutError` — never zero and never two:
whichever of the matching response or the timeout comes first removes the
pending entry and resolves the call, and the later path finds the entry
gone and is a no-op (conjuncts 2 and 3). -/
theorem claim_C1 :
    (∀ (c : MCPClient) (i : Nat) (evs : List ClientEvent), ClientInv c →
      i ∈ c.pendingRequests → ClientEvent.timeoutFire i ∈ evs →
      (runClient c evs).2.countP (fun o => o.reqId == i) = 1) ∧
    (∀ (c : MCPClient) (i : Nat), i ∉ c.pendingRequests →
      fireTimeout c i = (c, [])) ∧
    (∀ (c : MCPClient) (m : Json) (i : Nat), msgAsId m = some i →
      i ∉ c.pendingRequests → dispatchMessage c m = (c, [])) := by
  refine ⟨?_, fun c i h => fireTimeout_not_pending c i h,
    fun c m i hm h => dispatchMessage_not_pending c m i hm h⟩
  intro c i evs
  induction evs generalizing c with
  | nil =>
      intro _ _ ht
      simp at ht
  | cons e es ih =>
      intro h hi ht
      have hmid : i ≤ c.messageId := h.2 i hi
      rw [runClient, List.countP_append]
      cases e with
      | send =>
          have ht2 : ClientEvent.timeoutFire i ∈ es := by
            rcases List.mem_cons.1 ht with he | he
            · exact ClientEvent.noConfusion he
            · exact he
          rw [clientStep_send]
          simp only [List.countP_nil, Nat.zero_add]
          exact ih _ (sendRequest_inv c h) (List.mem_append_left _ hi) ht2
      | recv m =>
          have ht2 : ClientEvent.timeoutFire i ∈ es := by
            rcases List.mem_cons.1 ht with he | he
            · exact ClientEvent.noConfusion he
            · exact he
          cases hm : msgAsId m with
          | none =>
              simp only [clientStep_recv, dispatchMessage_none c m hm]
              simpa using ih c h hi ht2
          | some j =>
              by_cases hc : j ∈ c.pendingRequests
              · by_cases hji : j = i
                · subst hji
                  simp only [clientStep_recv,
                    dispatchMessage_pending c m j hm hc]
                  have h1 : List.countP (fun o => o.reqId == j)
                      [if jtruthy (m.getField "error") then
                          Outcome.rpcError j
                        else Outcome.success j] = 1 := by
                    simp [List.countP_cons, respOutcome_reqId]
                  rw [h1]
                  have hz := runClient_absent j es
                    { c with pendingRequests := c.pendingRequests.erase j }
                    (erase_inv c j h) h.1.not_mem_erase hmid
                  omega
                · simp only [clientStep_recv,
                    dispatchMessage_pending c m j hm hc]
                  have h1 : List.countP (fun o => o.reqId == i)
                      [if jtruthy (m.getField "error") then
                          Outcome.rpcError j
                        else Outcome.success j] = 0 := by
                    simp [List.countP_cons, respOutcome_reqId, hji]
                  rw [h1, Nat.zero_add]
                  exact ih _ (erase_inv c j h)
                    ((List.mem_erase_of_ne fun e => hji e.symm).2 hi) ht2
              · simp only [clientStep_recv,
                  dispatchMessage_not_pending c m j hm hc]
                simpa using ih c h hi ht2
      | timeoutFire j =>
          by_cases hji : j = i
          · subst hji
            simp only [clientStep_timeoutFire, fireTimeout_pending c j hi]
            have h1 : List.countP (fun o => o.reqId == j)
                [Outcome.timeoutError j] = 1 := by
              simp [List.countP_cons, timeoutOutcome_reqId]
            rw [h1]
            have hz := runClient_absent j es
              { c with pendingRequests := c.pendingRequests.erase j }
              (erase_inv c j h) h.1.not_mem_erase hmid
            omega
          · have ht2 : ClientEvent.timeoutFire i ∈ es := by
              rcases List.mem_cons.1 ht with he | he
              · cases he
                exact absurd rfl hji
              · exact he
            by_cases hc : j ∈ c.pendingRequests
            · simp only [clientStep_timeoutFire, fireTimeout_pending c j hc]
              have h1 : List.countP (fun o => o.reqId == i)
                  [Outcome.timeoutError j] = 0 := by
                simp [List.countP_cons, timeoutOutcome_reqId, hji]
              rw [h1, Nat.zero_add]
              exact ih _ (erase_inv c j h)
                ((List.mem_erase_of_ne fun e => hji e.symm).2 hi) ht2
            · simp only [clientStep_timeoutFire,
                fireTimeout_not_pending c j hc]
              simpa using ih c h hi ht2

/-- Closed witness for C1: a client with the single pending id 1 and the
event sequence consisting of just that id's timeout delivers exactly one
outcome for it. -/
theorem claim_C1_witness :
    (runClient ⟨1, [1]⟩ [ClientEvent.timeoutFire 1]).2.countP
      (fun o => o.reqId == 1) = 1 :=
  claim_C1.1 ⟨1, [1]⟩ 1 [ClientEvent.timeoutFire 1] ⟨by decide, by decide⟩
    (by decide) (List.mem_singleton.2 rfl)

/-- C10: for every framed message whose `id` field is absent or whose id is
not a key of the pending-request table — server-initiated requests,
notifications, duplicate or unsolicited responses — the dispatch step is a
complete no-op: the client state (id counter and pending table) is
unchanged, no outcome is delivered to any caller, and nothing is written to
the subprocess. -/
theorem claim_C10 (c : MCPClient) (m : Json)
    (h : (msgAsId m).all (fun i => !(c.pendingRequests.contains i)) = true) :
    clientStep c (ClientEvent.recv m) = (c, [], []) := by
  cases hm : msgAsId m with
  | none => simp only [clientStep_recv, dispatchMessage_none c m hm]
  | some i =>
      rw [hm] at h
      have hn : i ∉ c.pendingRequests := by
        intro hmem
        rw [Option.all, (contains_eq_true_iff _ _).2 hmem] at h
        simp at h
      simp only [clientStep_recv, dispatchMessage_not_pending c m i hm hn]

/-- A client state with pending ids 2 and 3. -/
def c10State : MCPClient := ⟨3, [2, 3]⟩

/-- An unsolicited response naming the never-issued id 99. -/
def c10Msg : Json :=
  Json.jobj
    [("jsonrpc", Json.jstr "2.0"), ("id", Json.jnum "99"),
      ("result", Json.jnum "1")]

/-- Closed witness for C10: dispatching the unsolicited response for id 99
against the client with pending ids 2 and 3 changes nothing, delivers
nothing, and writes nothing. -/
theorem claim_C10_witness :
    clientStep c10State (ClientEvent.recv c10Msg) = (c10State, [], []) :=
  claim_C10 c10State c10Msg (by decide)

end ReminderAgent
